import Mathlib

/-!
Verification of the text-structure classifier of `pdf2md.py`.

Strings are modelled as lists of Unicode code points (`List Char`), matching
Python's view of `str` as a sequence of code points (`len`, indexing,
`startswith`, `endswith`, slicing all act on code points).  Each Python
function of the core pipeline is embedded as an executable Lean definition;
the regular expressions of the source are translated into equivalent
deterministic scanners over `List Char` (every character class in the source
patterns is disjoint from its follower, so greedy scanning is exact; the one
pattern needing backtracking, the dotted-section rule, is embedded by an
explicit search `seekSep` covering every split the regex engine would try).
-/

namespace Pdf2Md

abbrev Str := List Char

/-- Whitespace as stripped by Python's `str.strip()` (the characters relevant
to this code base: ASCII whitespace, NBSP and the ideographic space). -/
def pySpace : List Char := [' ', '\t', '\n', '\r', '\x0b', '\x0c', ' ', '　']

def isSpace (c : Char) : Bool := decide (c ∈ pySpace)

def stripL (s : Str) : Str := s.dropWhile isSpace

def stripR (s : Str) : Str := (s.reverse.dropWhile isSpace).reverse

/-- Python `str.strip()`. -/
def strip (s : Str) : Str := stripR (stripL s)

def upperChars : List Char :=
  ['A', 'B', 'C', 'D', 'E', 'F', 'G', 'H', 'I', 'J', 'K', 'L', 'M',
   'N', 'O', 'P', 'Q', 'R', 'S', 'T', 'U', 'V', 'W', 'X', 'Y', 'Z']

/-- Python `str.lower()` restricted to ASCII letters (the only case-carrying
characters appearing in the source's patterns and inputs). -/
def asciiLower (c : Char) : Char :=
  if c ∈ upperChars then Char.ofNat (c.toNat + 32) else c

def lower (s : Str) : Str := s.map asciiLower

/-- Python `text.lower().strip()` as computed at the top of `identify_structure`. -/
def textLowerOf (t : Str) : Str := strip (lower t)

def startsWith (pat s : Str) : Bool := List.isPrefixOf pat s

def endsWith (pat s : Str) : Bool := List.isPrefixOf pat.reverse s.reverse

/-- Python substring test `pat in s`. -/
def containsSub (pat : Str) : Str → Bool
  | [] => decide (pat = [])
  | c :: cs => List.isPrefixOf pat (c :: cs) || containsSub pat cs

/-! ### `is_header_footer` (pdf2md.py lines 10-37) -/

/-- Regex `^--- 第 \d+ 页 ---$`. -/
def pageMarkMatch (s : Str) : Bool :=
  startsWith ['-', '-', '-', ' ', '第', ' '] s &&
    (decide ((s.drop 6).takeWhile Char.isDigit ≠ []) &&
     decide ((s.drop 6).dropWhile Char.isDigit = [' ', '页', ' ', '-', '-', '-']))

/-- Regex `^第\s*\d+\s*页$`. -/
def cnPageMatch (s : Str) : Bool :=
  if s.head? = some '第' then
    decide ((s.tail.dropWhile isSpace).takeWhile Char.isDigit ≠ []) &&
      decide (((s.tail.dropWhile isSpace).dropWhile Char.isDigit).dropWhile isSpace = ['页'])
  else false

/-- Regex `^Page\s*\d+\s*of\s*\d+$`. -/
def pageOfMatch (s : Str) : Bool :=
  startsWith ['P', 'a', 'g', 'e'] s &&
    (let r1 := (s.drop 4).dropWhile isSpace
     decide (r1.takeWhile Char.isDigit ≠ []) &&
       (let r3 := (r1.dropWhile Char.isDigit).dropWhile isSpace
        startsWith ['o', 'f'] r3 &&
          (let r4 := (r3.drop 2).dropWhile isSpace
           decide (r4 ≠ []) && r4.all Char.isDigit)))

/-- Function `is_header_footer(text)`: noise test for headers, footers and page
numbers, translated branch by branch from the source. -/
def is_header_footer (text : Str) : Bool :=
  if text = [] then true
  else if decide (strip text ≠ []) && (strip text).all Char.isDigit then true
  else if pageMarkMatch (strip text) then true
  else if decide (strip text = ['页']) || decide (strip text = ['P', 'a', 'g', 'e']) then true
  else if cnPageMatch (strip text) || pageOfMatch (strip text) then true
  else containsSub ['©'] text || containsSub ['版', '权', '所', '有'] text

/-! ### `should_merge_lines` and `merge_lines` (lines 39-80) -/

def end_punctuation : List Char := ['。', '！', '？', '；', '：', '.', '!', '?', ';', ':']

def start_punctuation : List Char := ['。', '！', '？', '；', '：', '.', '!', '?', ';', ':']

def should_merge_lines (line1 line2 : Str) : Bool :=
  if line1 = [] ∨ line2 = [] then false
  else if end_punctuation.any (fun p => decide (line1.getLast? = some p)) then false
  else if start_punctuation.any (fun p => decide (line2.head? = some p)) then false
  else if line1.length < 10 ∧ line2.length < 10 then false
  else true

/-- The loop body of `merge_lines`: `current` is the accumulator being grown,
the list argument the remaining input lines. -/
def mergeAux (current : Str) : List Str → List Str
  | [] => [current]
  | n :: ns =>
    if should_merge_lines current n then mergeAux (current ++ n) ns
    else current :: mergeAux n ns

def merge_lines : List Str → List Str
  | [] => []
  | l :: ls => mergeAux l ls

/-! ### Chapter / section matchers (lines 83-159) -/

/-- Character class `[一二三四五六七八九十百千万零0-9]`. -/
def chapNumChar (c : Char) : Bool :=
  c.isDigit || ['一', '二', '三', '四', '五', '六', '七', '八', '九', '十',
                '百', '千', '万', '零'].contains c

/-- Regex `^第[一二三四五六七八九十百千万零0-9]+章$`. -/
def chapterExactMatch (t : Str) : Bool :=
  if t.head? = some '第' then
    decide (t.tail.takeWhile chapNumChar ≠ []) &&
      decide (t.tail.dropWhile chapNumChar = ['章'])
  else false

/-- Regex `^第[一二三四五六七八九十百千万零0-9]+章[ 　]+` (prefix match). -/
def chapterSpaceMatch (t : Str) : Bool :=
  if t.head? = some '第' then
    decide (t.tail.takeWhile chapNumChar ≠ []) &&
      (decide ((t.tail.dropWhile chapNumChar).head? = some '章') &&
       decide ((t.tail.dropWhile chapNumChar).tail.head? = some ' ' ∨
               (t.tail.dropWhile chapNumChar).tail.head? = some '　'))
  else false

/-- Regex `^第[一二三四五六七八九十百千万零0-9]+章[ ]+` used by
`is_section_title` (ASCII space only, prefix match). -/
def titleChapterSpace (t : Str) : Bool :=
  if t.head? = some '第' then
    decide (t.tail.takeWhile chapNumChar ≠ []) &&
      (decide ((t.tail.dropWhile chapNumChar).head? = some '章') &&
       decide ((t.tail.dropWhile chapNumChar).tail.head? = some ' '))
  else false

/-- Regex `^第[一二三四五六七八九十百千万零0-9]+节[ ]+` used by
`is_section_title` (prefix match). -/
def titleSectionSpace (t : Str) : Bool :=
  if t.head? = some '第' then
    decide (t.tail.takeWhile chapNumChar ≠ []) &&
      (decide ((t.tail.dropWhile chapNumChar).head? = some '节') &&
       decide ((t.tail.dropWhile chapNumChar).tail.head? = some ' '))
  else false

/-- Function `is_section_title(line)` (lines 83-109; diagnostic prints dropped). -/
def is_section_title (line : Str) : Bool :=
  if strip line = [] then false
  else
    chapterExactMatch (strip line) || titleChapterSpace (strip line) ||
      titleSectionSpace (strip line)

/-! ### `identify_structure` (lines 111-159) -/

inductive Label where
  | toc_header | toc_item | preface | chapter | section_ | appendix | references | content
  deriving DecidableEq

/-- Regex `^(目\s*录|目\s*次|CONTENTS|TABLE OF CONTENTS)$` (IGNORECASE),
applied to the already lowercased, stripped text. -/
def tocMatch (s : Str) : Bool :=
  if s.head? = some '目' then
    decide ((s.tail.dropWhile isSpace).length = 1 ∧
            ((s.tail.dropWhile isSpace).head? = some '录' ∨
             (s.tail.dropWhile isSpace).head? = some '次'))
  else
    decide (s = ['c', 'o', 'n', 't', 'e', 'n', 't', 's']) ||
      decide (s = ['t', 'a', 'b', 'l', 'e', ' ', 'o', 'f', ' ',
                   'c', 'o', 'n', 't', 'e', 'n', 't', 's'])

def prefaceForms : List Str :=
  [['前', '言'], ['序', '言'], ['引', '言'], ['致', '谢'], ['序'],
   ['p', 'r', 'e', 'f', 'a', 'c', 'e'],
   ['i', 'n', 't', 'r', 'o', 'd', 'u', 'c', 't', 'i', 'o', 'n'],
   ['a', 'c', 'k', 'n', 'o', 'w', 'l', 'e', 'd', 'g', 'e', 'm', 'e', 'n', 't']]

/-- Regex `^(前言|序言|引言|致谢|序|preface|introduction|acknowledgement)$`. -/
def prefaceMatch (s : Str) : Bool := decide (s ∈ prefaceForms)

def numDotChar (c : Char) : Bool := c.isDigit || c = '.'

def sepChar (c : Char) : Bool := isSpace c || c = '.' || c = '．'

/-- Search for a split of the text after `<digits>.<one numeric-or-dot char>`
into a further run of `[0-9.]` followed by a separator character; covers every
backtracking choice of the regex engine for `[0-9.]+[\s\.．]+`. -/
def seekSep : Str → Bool
  | [] => false
  | c :: cs => sepChar c || (numDotChar c && seekSep cs)

/-- Regex `^([0-9]+\.[0-9.]+)[\s\.．]+(.*)` (prefix match). -/
def dottedSectionMatch (t : Str) : Bool :=
  decide (t.takeWhile Char.isDigit ≠ []) &&
    (decide ((t.dropWhile Char.isDigit).head? = some '.') &&
     (match (t.dropWhile Char.isDigit).tail with
      | [] => false
      | c :: cs => numDotChar c && seekSep cs))

/-- Regex `^第[一二三四五六七八九十百千万零0-9]+节[\s　]*` (prefix match). -/
def sectionCJKMatch (t : Str) : Bool :=
  if t.head? = some '第' then
    decide (t.tail.takeWhile chapNumChar ≠ []) &&
      decide ((t.tail.dropWhile chapNumChar).head? = some '节')
  else false

/-- Regex `^(附录|appendix)[\s　a-zA-Z]*` (prefix match), applied to the
lowercased, stripped text. -/
def appendixMatch (s : Str) : Bool :=
  startsWith ['附', '录'] s || startsWith ['a', 'p', 'p', 'e', 'n', 'd', 'i', 'x'] s

/-- Regex `^(参考文献|references)$`, applied to the lowercased, stripped text. -/
def referencesMatch (s : Str) : Bool :=
  decide (s = ['参', '考', '文', '献']) ||
    decide (s = ['r', 'e', 'f', 'e', 'r', 'e', 'n', 'c', 'e', 's'])

/-- Function `identify_structure(text)`: ordered rule list of the classifier
(diagnostic prints dropped). -/
def identify_structure (t : Str) : Label × Str :=
  if tocMatch (textLowerOf t) then (Label.toc_header, t)
  else if prefaceMatch (textLowerOf t) then (Label.preface, t)
  else if chapterExactMatch t then (Label.chapter, t)
  else if chapterSpaceMatch t then (Label.chapter, t)
  else if dottedSectionMatch t then (Label.section_, t)
  else if sectionCJKMatch t then (Label.section_, t)
  else if appendixMatch (textLowerOf t) then (Label.appendix, t)
  else if referencesMatch (textLowerOf t) then (Label.references, t)
  else (Label.content, t)

/-! ### The structuring pass of `convert_raw_to_markdown` (lines 231-298) -/

/-- The delimiter test `line.startswith("--- 第") and line.endswith("页 ---")`
of the first loop. -/
def isPageDelimLine (l : Str) : Bool :=
  startsWith ['-', '-', '-', ' ', '第'] l && endsWith ['页', ' ', '-', '-', '-'] l

/-- Membership test `identify_structure(line)[0] in ["preface", "chapter",
"section", "appendix", "references"]`. -/
def headingLabel : Label → Bool
  | Label.preface | Label.chapter | Label.section_ | Label.appendix | Label.references => true
  | _ => false

/-- The heading test used at lines 243, 265 and 272:
`is_section_title(line) or identify_structure(line)[0] in [...]`. -/
def isHeadingLine (l : Str) : Bool :=
  is_section_title l || headingLabel (identify_structure l).1

/-- The first loop of `convert_raw_to_markdown` (lines 231-255): drops page
delimiters, blank and noise lines, strips the surviving lines; `cur` is the
pending `current_lines` buffer (flushed before each heading, at each
delimiter and at the end). -/
def filterLoop : List Str → List Str → List Str
  | cur, [] => cur
  | cur, line :: rest =>
    if isPageDelimLine line then cur ++ filterLoop [] rest
    else if decide (strip line ≠ []) && !is_header_footer (strip line) then
      if isHeadingLine (strip line) then cur ++ strip line :: filterLoop [] rest
      else filterLoop (cur ++ [strip line]) rest
    else filterLoop cur rest

/-- The merging while-loop (lines 259-280): headings pass through unmerged,
maximal runs of non-heading lines are fed to `merge_lines`; `pending` is the
current run of non-heading lines. -/
def mergeStageAux : List Str → List Str → List Str
  | pending, [] => merge_lines pending
  | pending, l :: ls =>
    if isHeadingLine l then merge_lines pending ++ l :: mergeStageAux [] ls
    else mergeStageAux (pending ++ [l]) ls

def processedLines (xs : List Str) : List Str := mergeStageAux [] xs

/-- The structure loop (lines 284-298): classify each processed line, skip
table-of-contents records, keep everything else. -/
def structuredStep : List Str → List (Label × Str)
  | [] => []
  | l :: ls =>
    if (identify_structure l).1 = Label.content then
      identify_structure l :: structuredStep ls
    else if (identify_structure l).1 = Label.toc_header ∨
            (identify_structure l).1 = Label.toc_item then structuredStep ls
    else identify_structure l :: structuredStep ls

/-- The full structuring pass of `convert_raw_to_markdown`, from the split
input lines to the `structured_content` list of records. -/
def convertStructured (lines : List Str) : List (Label × Str) :=
  structuredStep (processedLines (filterLoop [] lines))

/-! ### The renderer of `convert_raw_to_markdown` (lines 302-323) -/

/-- The fixed attribution block written after the records
(`"\n\n---\n\n"` then `"*由PDF2MD自动转换生成*\n"`). -/
def footerText : Str :=
  ['\n', '\n', '-', '-', '-', '\n', '\n',
   '*', '由', 'P', 'D', 'F', '2', 'M', 'D', '自', '动', '转', '换', '生', '成', '*', '\n']

/-- The per-record writes of the output loop, concatenated in order. -/
def renderBody : List (Label × Str) → Str
  | [] => []
  | (t, c) :: rs =>
    (if t = Label.preface then ['#', ' '] ++ c ++ ['\n', '\n'] ++ ['-', '-', '-', '\n', '\n']
     else if t = Label.chapter then ['#', ' '] ++ c ++ ['\n', '\n'] ++ ['-', '-', '-', '\n', '\n']
     else if t = Label.section_ then ['#', '#', ' '] ++ c ++ ['\n', '\n']
     else if t = Label.appendix then ['#', ' '] ++ c ++ ['\n', '\n'] ++ ['-', '-', '-', '\n', '\n']
     else if t = Label.references then ['#', ' '] ++ c ++ ['\n', '\n'] ++ ['-', '-', '-', '\n', '\n']
     else c ++ ['\n', '\n']) ++ renderBody rs

/-- The whole Markdown document written for a record list. -/
def renderMarkdown (recs : List (Label × Str)) : Str := renderBody recs ++ footerText

/-- What the first loop of `convert_raw_to_markdown` keeps of a single input
line: nothing for page delimiters, blanks and noise, the stripped line
otherwise. -/
def keptLine (l : Str) : Option Str :=
  if isPageDelimLine l then none
  else if decide (strip l ≠ []) && !is_header_footer (strip l) then some (strip l)
  else none

/-- The record the structure loop of `convert_raw_to_markdown` emits for one
processed line: nothing for toc records, the classified pair otherwise. -/
def tocFilter (l : Str) : Option (Label × Str) :=
  if (identify_structure l).1 = Label.toc_header ∨ (identify_structure l).1 = Label.toc_item
  then none else some (identify_structure l)

/-- The per-record output chunk as the claim describes it: top-level heading
plus horizontal rule for `preface`/`chapter`/`appendix`/`references`,
second-level heading for `section`, paragraph block otherwise. -/
def renderChunkSpec (t : Label) (c : Str) : Str :=
  if t = Label.preface ∨ t = Label.chapter ∨ t = Label.appendix ∨ t = Label.references then
    ['#', ' '] ++ c ++ ['\n', '\n'] ++ ['-', '-', '-', '\n', '\n']
  else if t = Label.section_ then ['#', '#', ' '] ++ c ++ ['\n', '\n']
  else c ++ ['\n', '\n']

/-! ### Helper lemmas -/

theorem mergeAux_flatten (ls : List Str) (c : Str) :
    (mergeAux c ls).flatten = c ++ ls.flatten := by
  induction ls generalizing c with
  | nil => simp [mergeAux]
  | cons n ns ih =>
    simp only [mergeAux]
    split
    · rw [ih]; simp
    · simp [ih]

theorem mergeAux_ne_nil (ls : List Str) (c : Str) : mergeAux c ls ≠ [] := by
  induction ls generalizing c with
  | nil => simp [mergeAux]
  | cons n ns ih =>
    simp only [mergeAux]
    split
    · exact ih _
    · simp

theorem sml_empty (a b : Str) (h : a = [] ∨ b = []) : should_merge_lines a b = false := by
  simp [should_merge_lines, h]

theorem sml_end (a b : Str) (p : Char) (hp : p ∈ end_punctuation) (h : a.getLast? = some p) :
    should_merge_lines a b = false := by
  have hc : (end_punctuation.any fun q => decide (a.getLast? = some q)) = true :=
    List.any_eq_true.2 ⟨p, hp, by simp [h]⟩
  by_cases h0 : a = [] ∨ b = []
  · simp [should_merge_lines, h0]
  · simp [should_merge_lines, h0, hc]

theorem sml_start (a b : Str) (p : Char) (hp : p ∈ start_punctuation) (h : b.head? = some p) :
    should_merge_lines a b = false := by
  have hc : (start_punctuation.any fun q => decide (b.head? = some q)) = true :=
    List.any_eq_true.2 ⟨p, hp, by simp [h]⟩
  by_cases h0 : a = [] ∨ b = []
  · simp [should_merge_lines, h0]
  · by_cases hA : (end_punctuation.any fun q => decide (a.getLast? = some q)) = true
    · simp [should_merge_lines, h0, hA]
    · simp [should_merge_lines, h0, hA, hc]

theorem sml_short (a b : Str) (h1 : a.length < 10) (h2 : b.length < 10) :
    should_merge_lines a b = false := by
  unfold should_merge_lines
  repeat' split
  all_goals simp_all

theorem sml_true (a b : Str) (ha : a ≠ []) (hb : b ≠ [])
    (h3 : ∀ p ∈ end_punctuation, a.getLast? ≠ some p)
    (h4 : ∀ p ∈ start_punctuation, b.head? ≠ some p)
    (h5 : ¬(a.length < 10 ∧ b.length < 10)) : should_merge_lines a b = true := by
  have h0 : ¬(a = [] ∨ b = []) := by rintro (h | h) <;> contradiction
  have hA : (end_punctuation.any fun q => decide (a.getLast? = some q)) = false := by
    cases hE : (end_punctuation.any fun q => decide (a.getLast? = some q)) with
    | false => rfl
    | true =>
      obtain ⟨p, hp, hd⟩ := List.any_eq_true.1 hE
      rw [decide_eq_true_eq] at hd
      exact absurd hd (h3 p hp)
  have hB : (start_punctuation.any fun q => decide (b.head? = some q)) = false := by
    cases hE : (start_punctuation.any fun q => decide (b.head? = some q)) with
    | false => rfl
    | true =>
      obtain ⟨p, hp, hd⟩ := List.any_eq_true.1 hE
      rw [decide_eq_true_eq] at hd
      exact absurd hd (h4 p hp)
  simp [should_merge_lines, h0, hA, hB, h5]

theorem dropWhile_append_all {p : Char → Bool} (w t : Str) (hw : ∀ c ∈ w, p c = true) :
    (w ++ t).dropWhile p = t.dropWhile p := by
  induction w with
  | nil => simp
  | cons c cs ih =>
    have hc : p c = true := hw c (List.mem_cons_self c cs)
    simp only [List.cons_append, List.dropWhile_cons, hc, if_true]
    exact ih fun d hd => hw d (List.mem_cons_of_mem c hd)

theorem dropWhile_cons_neg {p : Char → Bool} {c : Char} (t : Str) (hc : p c = false) :
    (c :: t).dropWhile p = c :: t := by
  simp [List.dropWhile_cons, hc]

theorem isDigit_not_space {c : Char} (h : c.isDigit = true) : isSpace c = false := by
  cases hs : isSpace c with
  | false => rfl
  | true =>
    rw [isSpace, decide_eq_true_eq] at hs
    simp only [pySpace, List.mem_cons, List.not_mem_nil, or_false] at hs
    rcases hs with rfl | rfl | rfl | rfl | rfl | rfl | rfl | rfl <;> exact absurd h (by decide)

/-- Applying `strip` to a digit run surrounded by whitespace gives the digit run. -/
theorem strip_wrapped_digits (w1 d w2 : Str) (hw1 : ∀ c ∈ w1, isSpace c = true)
    (hw2 : ∀ c ∈ w2, isSpace c = true) (hd : d ≠ []) (hdd : ∀ c ∈ d, c.isDigit = true) :
    strip (w1 ++ (d ++ w2)) = d := by
  obtain ⟨c, d', rfl⟩ := List.exists_cons_of_ne_nil hd
  have hL : stripL (w1 ++ (c :: d' ++ w2)) = c :: d' ++ w2 := by
    unfold stripL
    rw [dropWhile_append_all _ _ hw1]
    exact dropWhile_cons_neg _ (isDigit_not_space (hdd c (List.mem_cons_self c d')))
  unfold strip
  rw [hL]
  unfold stripR
  rw [show (c :: d' ++ w2).reverse = w2.reverse ++ (c :: d').reverse by simp,
    dropWhile_append_all _ _ (fun x hx => hw2 x (List.mem_reverse.1 hx))]
  rcases List.exists_cons_of_ne_nil (show (c :: d').reverse ≠ [] by simp) with ⟨e, r, hr⟩
  have he : e ∈ c :: d' := by
    rw [← List.mem_reverse, hr]; exact List.mem_cons_self e r
  rw [hr, dropWhile_cons_neg _ (isDigit_not_space (hdd e he)), ← hr, List.reverse_reverse]

/-! ### Claim theorems -/

/-- Claim C1: `should_merge_lines(a, b)` is false when `a` or `b` is empty,
when `a` ends with one of the sentence-terminal marks `。！？；：.!?;:`, when
`b` begins with one of those marks, or when both have length below 10, and is
true otherwise; in particular it is false for non-empty `a`, `b` when `a`
ends in `'.'` or `b` starts with `'.'`. -/
theorem c1_should_merge_lines_spec :
    (∀ a b : Str, a = [] ∨ b = [] → should_merge_lines a b = false) ∧
    (∀ a b : Str, ∀ p ∈ end_punctuation, a.getLast? = some p →
      should_merge_lines a b = false) ∧
    (∀ a b : Str, ∀ p ∈ start_punctuation, b.head? = some p →
      should_merge_lines a b = false) ∧
    (∀ a b : Str, a.length < 10 → b.length < 10 → should_merge_lines a b = false) ∧
    (∀ a b : Str, a ≠ [] → b ≠ [] → (∀ p ∈ end_punctuation, a.getLast? ≠ some p) →
      (∀ p ∈ start_punctuation, b.head? ≠ some p) →
      ¬(a.length < 10 ∧ b.length < 10) → should_merge_lines a b = true) ∧
    (∀ a b : Str, a ≠ [] → b ≠ [] → (a.getLast? = some '.' ∨ b.head? = some '.') →
      should_merge_lines a b = false) :=
  ⟨sml_empty, fun a b p hp h => sml_end a b p hp h, fun a b p hp h => sml_start a b p hp h,
    sml_short, sml_true, fun a b _ _ h =>
      h.elim (fun h => sml_end a b '.' (by decide) h) fun h => sml_start a b '.' (by decide) h⟩

theorem c1_witness :
    should_merge_lines "abcdefghijk".toList "xyz".toList = true ∧
      should_merge_lines "abcdefghijk".toList ".xy".toList = false :=
  ⟨c1_should_merge_lines_spec.2.2.2.2.1 _ _ (by decide) (by decide) (by decide) (by decide)
      (by decide),
    c1_should_merge_lines_spec.2.2.2.2.2 _ _ (by decide) (by decide) (Or.inr (by decide))⟩

/-- Claim C2: the classifier's results on the four example inputs:
`第五章` is a chapter, `1.2 Overview` a section, `参考文献` references and
`Hello world` content, each with the text preserved verbatim. -/
theorem c2_classifier_examples :
    identify_structure "第五章".toList = (Label.chapter, "第五章".toList) ∧
    identify_structure "1.2 Overview".toList = (Label.section_, "1.2 Overview".toList) ∧
    identify_structure "参考文献".toList = (Label.references, "参考文献".toList) ∧
    identify_structure "Hello world".toList = (Label.content, "Hello world".toList) := by
  decide

/-- Claim C3 counterexample: `"1. Overview"` — a single integer followed by a
period separator and a title, which the claim includes in the "numeric dotted
section" pattern — is not matched by the code's dotted-section rule (the regex
demands a digit or dot right after the first `.`), and no earlier rule (toc
header, preface, chapter) matches either, so the classifier returns `content`,
not `section`. -/
theorem c3_counterexample :
    tocMatch (textLowerOf "1. Overview".toList) = false ∧
    prefaceMatch (textLowerOf "1. Overview".toList) = false ∧
    chapterExactMatch "1. Overview".toList = false ∧
    chapterSpaceMatch "1. Overview".toList = false ∧
    identify_structure "1. Overview".toList = (Label.content, "1. Overview".toList) := by
  decide

/-- Claim C3 (amended): every line matching the code's dotted-section pattern
— one or more digits, a dot, then at least one further digit or dot, then a
separator (whitespace, `.` or `．`) and a title (so at least two numeric
components: a bare `1. Title` does not match) — is classified `section`,
provided none of the earlier rules (toc header, preface, the two chapter
rules) matched. -/
theorem c3_amended_dotted_section (t : Str) (hd : dottedSectionMatch t = true)
    (h1 : tocMatch (textLowerOf t) = false) (h2 : prefaceMatch (textLowerOf t) = false)
    (h3 : chapterExactMatch t = false) (h4 : chapterSpaceMatch t = false) :
    identify_structure t = (Label.section_, t) := by
  simp [identify_structure, h1, h2, h3, h4, hd]

theorem c3_witness : identify_structure "1.1 Overview".toList =
    (Label.section_, "1.1 Overview".toList) :=
  c3_amended_dotted_section _ (by decide) (by decide) (by decide) (by decide) (by decide)

/-- Claim C4 counterexample: the single-space string is whitespace-only, yet
`is_header_footer` returns false on it (`"".isdigit()` is false and no other
branch fires): the claim's "true for every whitespace-only string" fails. -/
theorem c4_counterexample : is_header_footer " ".toList = false := by decide

/-- Claim C4 (amended): `is_header_footer` returns true for the empty string
and for every string consisting of digits optionally surrounded by
whitespace; a non-empty whitespace-only string is not noise for this function
(the caller drops blank lines by a separate truthiness check). -/
theorem c4_amended_noise :
    is_header_footer [] = true ∧
    ∀ w1 d w2 : Str, (∀ c ∈ w1, isSpace c = true) → (∀ c ∈ w2, isSpace c = true) →
      d ≠ [] → (∀ c ∈ d, c.isDigit = true) → is_header_footer (w1 ++ (d ++ w2)) = true := by
  refine ⟨by decide, fun w1 d w2 hw1 hw2 hd hdd => ?_⟩
  have hs : strip (w1 ++ (d ++ w2)) = d := strip_wrapped_digits w1 d w2 hw1 hw2 hd hdd
  have hne : w1 ++ (d ++ w2) ≠ [] := by
    intro h
    rcases List.append_eq_nil.1 h with ⟨-, h2⟩
    exact hd (List.append_eq_nil.1 h2).1
  unfold is_header_footer
  rw [if_neg hne, hs]
  simp [hd, List.all_eq_true.2 hdd]

theorem c4_witness : is_header_footer (" ".toList ++ ("42".toList ++ "\t ".toList)) = true :=
  c4_amended_noise.2 _ _ _ (by decide) (by decide) (by decide) (by decide)

/-- Claim C10: `merge_lines` loses no text and invents none — the
concatenation of its output equals the concatenation of its input,
`merge_lines [] = []`, and a non-empty input gives a non-empty output. -/
theorem c10_merge_preserves_text :
    merge_lines ([] : List Str) = [] ∧
    (∀ lines : List Str, (merge_lines lines).flatten = lines.flatten) ∧
    (∀ (l : Str) (ls : List Str), merge_lines (l :: ls) ≠ []) := by
  refine ⟨rfl, fun lines => ?_, fun l ls => ?_⟩
  · cases lines with
    | nil => rfl
    | cons l ls => simpa [merge_lines] using mergeAux_flatten ls l
  · simpa [merge_lines] using mergeAux_ne_nil ls l

theorem filterLoop_eq (lines : List Str) :
    ∀ cur, filterLoop cur lines = cur ++ lines.filterMap keptLine := by
  induction lines with
  | nil => intro cur; simp [filterLoop]
  | cons l rest ih =>
    intro cur
    simp only [filterLoop, List.filterMap_cons]
    by_cases h1 : isPageDelimLine l = true
    · rw [if_pos h1, ih, List.nil_append, show keptLine l = none by simp [keptLine, h1]]
    · rw [if_neg h1]
      by_cases h2 : (decide (strip l ≠ []) && !is_header_footer (strip l)) = true
      · rw [if_pos h2, show keptLine l = some (strip l) by
          unfold keptLine; rw [if_neg h1, if_pos h2]]
        by_cases h3 : isHeadingLine (strip l) = true
        · rw [if_pos h3, ih, List.nil_append]
        · rw [if_neg h3, ih, List.append_assoc]
          rfl
      · rw [if_neg h2, show keptLine l = none by unfold keptLine; rw [if_neg h1, if_neg h2], ih]

theorem filterMap_keptLine_filter (lines : List Str) :
    (lines.filter fun l => !isPageDelimLine l).filterMap keptLine = lines.filterMap keptLine := by
  induction lines with
  | nil => rfl
  | cons l rest ih =>
    by_cases h1 : isPageDelimLine l = true
    · rw [List.filter_cons_of_neg (by simp [h1]), List.filterMap_cons,
        show keptLine l = none by simp [keptLine, h1], ih]
    · rw [List.filter_cons_of_pos (by simp [h1]), List.filterMap_cons, List.filterMap_cons, ih]

/-- Claim C5 counterexample: the two content lines are separated in the input
by a page-delimiter pseudo-line, yet the structuring pass merges them into a
single logical line (one record whose text is their concatenation): the
delimiter is deleted before merging, so it is not a merge boundary. -/
theorem c5_counterexample :
    isPageDelimLine "--- 第 1 页 ---".toList = true ∧
    convertStructured ["This is a very long sentence that wraps".toList,
        "--- 第 1 页 ---".toList, "across two lines without punctuation".toList] =
      [(Label.content, "This is a very long sentence that wraps".toList ++
        "across two lines without punctuation".toList)] := by
  decide

/-- Claim C5 (amended): page-delimiter pseudo-lines are simply deleted by the
structuring pass — they never appear in any output record and the output is
exactly the output on the input with the delimiter lines removed. In
particular they are not merge boundaries: two lines separated only by a page
delimiter can still be merged into one logical line (the accumulation flush
they trigger happens before the merging loop runs and has no effect on it). -/
theorem c5_amended_delimiters (lines : List Str) :
    convertStructured lines = convertStructured (lines.filter fun l => !isPageDelimLine l) := by
  unfold convertStructured
  rw [filterLoop_eq, filterLoop_eq, List.nil_append, List.nil_append,
    filterMap_keptLine_filter]

theorem structuredStep_eq (ls : List Str) : structuredStep ls = ls.filterMap tocFilter := by
  induction ls with
  | nil => rfl
  | cons l ls ih =>
    simp only [structuredStep, List.filterMap_cons]
    by_cases hc : (identify_structure l).1 = Label.content
    · have ht : ¬((identify_structure l).1 = Label.toc_header ∨
          (identify_structure l).1 = Label.toc_item) := by
        rw [hc]; rintro (h | h) <;> exact Label.noConfusion h
      rw [if_pos hc, show tocFilter l = some (identify_structure l) from if_neg ht, ih]
    · by_cases ht : (identify_structure l).1 = Label.toc_header ∨
          (identify_structure l).1 = Label.toc_item
      · rw [if_neg hc, if_pos ht, show tocFilter l = none from if_pos ht, ih]
      · rw [if_neg hc, if_neg ht, show tocFilter l = some (identify_structure l) from if_neg ht,
          ih]

/-- Claim C7: the structure loop is exactly a filter-map that classifies each
processed line, discards `toc_header`/`toc_item` lines and keeps one record
per remaining line; consequently no record of the structuring pass ever
carries a toc label. -/
theorem c7_no_toc_records :
    (∀ ls : List Str, structuredStep ls = ls.filterMap tocFilter) ∧
    (∀ (lines : List Str), ∀ r ∈ convertStructured lines,
      r.1 ≠ Label.toc_header ∧ r.1 ≠ Label.toc_item) := by
  refine ⟨structuredStep_eq, fun lines r hr => ?_⟩
  rw [convertStructured, structuredStep_eq] at hr
  obtain ⟨l, -, hfl⟩ := List.mem_filterMap.1 hr
  unfold tocFilter at hfl
  split at hfl
  · exact Option.noConfusion hfl
  · next ht =>
    rw [← Option.some.inj hfl]
    exact not_or.1 ht

theorem c7_witness :
    ((Label.content, "Hello world".toList) : Label × Str).1 ≠ Label.toc_header ∧
      ((Label.content, "Hello world".toList) : Label × Str).1 ≠ Label.toc_item :=
  c7_no_toc_records.2 ["Hello world".toList] _ (by decide)

theorem renderBody_eq (recs : List (Label × Str)) :
    renderBody recs = (recs.map fun r => renderChunkSpec r.1 r.2).flatten := by
  induction recs with
  | nil => rfl
  | cons r rs ih =>
    obtain ⟨t, c⟩ := r
    simp only [renderBody, List.map_cons, List.flatten_cons, ih]
    congr 1
    cases t <;> rfl

/-- Claim C9: the renderer writes, per record, a `"# "` heading followed by a
`---` rule for `preface`/`chapter`/`appendix`/`references`, a `"## "` heading
with no rule for `section`, and a paragraph block for `content`, and appends
the fixed attribution block exactly once at the end — also for the empty
record list, whose document is the attribution block alone. -/
theorem c9_renderer :
    (∀ recs : List (Label × Str),
      renderMarkdown recs = (recs.map fun r => renderChunkSpec r.1 r.2).flatten ++ footerText) ∧
    renderMarkdown [] = footerText := by
  refine ⟨fun recs => ?_, rfl⟩
  rw [renderMarkdown, renderBody_eq]

theorem chapterExactMatch_head {t : Str} (h : chapterExactMatch t = true) :
    t.head? = some '第' := by
  unfold chapterExactMatch at h
  split at h
  · assumption
  · exact Bool.noConfusion h

theorem titleChapterSpace_head {t : Str} (h : titleChapterSpace t = true) :
    t.head? = some '第' := by
  unfold titleChapterSpace at h
  split at h
  · assumption
  · exact Bool.noConfusion h

theorem titleSectionSpace_head {t : Str} (h : titleSectionSpace t = true) :
    t.head? = some '第' := by
  unfold titleSectionSpace at h
  split at h
  · assumption
  · exact Bool.noConfusion h

theorem is_section_title_head {y : Str} (h : is_section_title y = true) :
    (strip y).head? = some '第' := by
  unfold is_section_title at h
  split at h
  · exact Bool.noConfusion h
  · simp only [Bool.or_eq_true] at h
    rcases h with (h | h) | h
    · exact chapterExactMatch_head h
    · exact titleChapterSpace_head h
    · exact titleSectionSpace_head h

theorem isSpace_asciiLower (c : Char) : isSpace (asciiLower c) = isSpace c := by
  unfold asciiLower
  by_cases h : c ∈ upperChars
  · rw [if_pos h]
    simp only [upperChars, List.mem_cons, List.not_mem_nil, or_false] at h
    rcases h with rfl | rfl | rfl | rfl | rfl | rfl | rfl | rfl | rfl | rfl | rfl | rfl | rfl |
      rfl | rfl | rfl | rfl | rfl | rfl | rfl | rfl | rfl | rfl | rfl | rfl | rfl <;> decide
  · rw [if_neg h]

theorem dropWhile_lower (s : Str) :
    (lower s).dropWhile isSpace = lower (s.dropWhile isSpace) := by
  induction s with
  | nil => rfl
  | cons c cs ih =>
    by_cases hc : isSpace c = true
    · simp only [lower, List.map_cons, List.dropWhile_cons, isSpace_asciiLower, hc, if_true]
      exact ih
    · simp [lower, List.dropWhile_cons, isSpace_asciiLower, hc]

theorem reverse_lower (s : Str) : (lower s).reverse = lower s.reverse := by
  simp [lower]

theorem strip_lower (s : Str) : strip (lower s) = lower (strip s) := by
  unfold strip stripL stripR
  rw [dropWhile_lower, reverse_lower, dropWhile_lower, reverse_lower]

theorem textLowerOf_eq (s : Str) : textLowerOf s = lower (strip s) := strip_lower s

theorem head_lower (s : Str) : (lower s).head? = s.head?.map asciiLower := by
  cases s <;> simp [lower]

theorem ist_textLower_head {y : Str} (h : is_section_title y = true) :
    (textLowerOf y).head? = some '第' := by
  rw [textLowerOf_eq, head_lower, is_section_title_head h]
  rfl

theorem toc_heads {s : Str} (h : tocMatch s = true) :
    s.head? = some '目' ∨ s.head? = some 'c' ∨ s.head? = some 't' := by
  unfold tocMatch at h
  split at h
  · next hc => exact Or.inl hc
  · simp only [Bool.or_eq_true, decide_eq_true_eq] at h
    rcases h with rfl | rfl
    · exact Or.inr (Or.inl rfl)
    · exact Or.inr (Or.inr rfl)

theorem preface_heads {s : Str} (h : prefaceMatch s = true) :
    s.head? = some '前' ∨ s.head? = some '序' ∨ s.head? = some '引' ∨ s.head? = some '致' ∨
      s.head? = some 'p' ∨ s.head? = some 'i' ∨ s.head? = some 'a' := by
  rw [prefaceMatch, decide_eq_true_eq] at h
  simp only [prefaceForms, List.mem_cons, List.not_mem_nil, or_false] at h
  rcases h with rfl | rfl | rfl | rfl | rfl | rfl | rfl | rfl <;> decide

theorem ist_not_toc {y : Str} (h : is_section_title y = true) :
    tocMatch (textLowerOf y) = false := by
  cases htoc : tocMatch (textLowerOf y) with
  | false => rfl
  | true =>
    rcases toc_heads htoc with h1 | h1 | h1 <;> rw [ist_textLower_head h] at h1 <;>
      exact absurd h1 (by decide)

theorem ist_not_preface {y : Str} (h : is_section_title y = true) :
    prefaceMatch (textLowerOf y) = false := by
  cases hp : prefaceMatch (textLowerOf y) with
  | false => rfl
  | true =>
    rcases preface_heads hp with h1 | h1 | h1 | h1 | h1 | h1 | h1 <;>
      rw [ist_textLower_head h] at h1 <;> exact absurd h1 (by decide)

theorem identify_snd (t : Str) : (identify_structure t).2 = t := by
  unfold identify_structure
  repeat' split
  all_goals rfl

theorem identify_ne_toc_item (t : Str) : (identify_structure t).1 ≠ Label.toc_item := by
  unfold identify_structure
  repeat' split
  all_goals exact fun h => Label.noConfusion h

theorem identify_toc_inv {t : Str} (h : (identify_structure t).1 = Label.toc_header) :
    tocMatch (textLowerOf t) = true := by
  unfold identify_structure at h
  repeat' split at h
  all_goals first
    | assumption
    | exact absurd h (by exact fun h => Label.noConfusion h)

theorem titleChapterSpace_imp {t : Str} (h : titleChapterSpace t = true) :
    chapterSpaceMatch t = true := by
  unfold titleChapterSpace at h
  unfold chapterSpaceMatch
  split at h
  · next hc =>
    rw [if_pos hc]
    simp only [Bool.and_eq_true, decide_eq_true_eq] at h ⊢
    exact ⟨h.1, h.2.1, Or.inl h.2.2⟩
  · exact Bool.noConfusion h

theorem titleSectionSpace_parts {t : Str} (h : titleSectionSpace t = true) :
    t.head? = some '第' ∧ t.tail.takeWhile chapNumChar ≠ [] ∧
      (t.tail.dropWhile chapNumChar).head? = some '节' := by
  unfold titleSectionSpace at h
  split at h
  · next hc =>
    simp only [Bool.and_eq_true, decide_eq_true_eq] at h
    exact ⟨hc, h.1, h.2.1⟩
  · exact Bool.noConfusion h

theorem chapterExact_false_of_jie {t : Str} (h1 : t.head? = some '第')
    (h3 : (t.tail.dropWhile chapNumChar).head? = some '节') : chapterExactMatch t = false := by
  cases hE : chapterExactMatch t with
  | false => rfl
  | true =>
    unfold chapterExactMatch at hE
    rw [if_pos h1] at hE
    simp only [Bool.and_eq_true, decide_eq_true_eq] at hE
    rw [hE.2] at h3
    exact absurd h3 (by decide)

theorem chapterSpace_false_of_jie {t : Str} (h1 : t.head? = some '第')
    (h3 : (t.tail.dropWhile chapNumChar).head? = some '节') : chapterSpaceMatch t = false := by
  cases hE : chapterSpaceMatch t with
  | false => rfl
  | true =>
    unfold chapterSpaceMatch at hE
    rw [if_pos h1] at hE
    simp only [Bool.and_eq_true, decide_eq_true_eq] at hE
    rw [hE.2.1] at h3
    exact absurd h3 (by decide)

theorem dotted_false_of_head {t : Str} (h : t.head? = some '第') :
    dottedSectionMatch t = false := by
  cases t with
  | nil => exact Option.noConfusion h
  | cons c cs =>
    rw [Option.some.inj (show some c = some '第' from h)]
    have hd : Char.isDigit '第' = false := by decide
    simp [dottedSectionMatch, List.takeWhile, hd]

theorem sectionCJK_of_parts {t : Str} (h1 : t.head? = some '第')
    (h2 : t.tail.takeWhile chapNumChar ≠ [])
    (h3 : (t.tail.dropWhile chapNumChar).head? = some '节') : sectionCJKMatch t = true := by
  unfold sectionCJKMatch
  rw [if_pos h1]
  simp only [Bool.and_eq_true, decide_eq_true_eq]
  exact ⟨h2, h3⟩

/-- On a whitespace-stripped line, a hit of `is_section_title` always lands in
the classifier's `chapter` or `section` label. -/
theorem ist_label {s : Str} (h : is_section_title s = true) (hs : strip s = s) :
    (identify_structure s).1 = Label.chapter ∨ (identify_structure s).1 = Label.section_ := by
  have htoc : tocMatch (textLowerOf s) = false := ist_not_toc h
  have hpre : prefaceMatch (textLowerOf s) = false := ist_not_preface h
  unfold is_section_title at h
  rw [hs] at h
  split at h
  · exact Bool.noConfusion h
  · simp only [Bool.or_eq_true] at h
    rcases h with (hA | hB) | hC
    · left
      simp [identify_structure, htoc, hpre, hA]
    · by_cases hA : chapterExactMatch s = true
      · left
        simp [identify_structure, htoc, hpre, hA]
      · left
        simp [identify_structure, htoc, hpre, hA, titleChapterSpace_imp hB]
    · obtain ⟨h1, h2, h3⟩ := titleSectionSpace_parts hC
      right
      simp [identify_structure, htoc, hpre, chapterExact_false_of_jie h1 h3,
        chapterSpace_false_of_jie h1 h3, dotted_false_of_head h1, sectionCJK_of_parts h1 h2 h3]

theorem headingLabel_iff (lab : Label) :
    headingLabel lab = true ↔
      (lab ≠ Label.content ∧ lab ≠ Label.toc_header ∧ lab ≠ Label.toc_item) := by
  cases lab <;> decide

/-- Claim C6 counterexample: on the line `" 第五章"` (leading space) the
structuring pass's heading predicate is true — `is_section_title` strips its
argument and matches the chapter pattern — while the classifier, whose
chapter rules run on the unstripped text, labels the line `content`. The
claimed equivalence between the predicate and "label not in
{content, toc_header, toc_item}" therefore fails, and `is_section_title` does
make a line a heading whose classifier label is `content`. -/
theorem c6_counterexample :
    isHeadingLine (' ' :: "第五章".toList) = true ∧
      (identify_structure (' ' :: "第五章".toList)).1 = Label.content := by
  decide

/-- Claim C6 (amended): for every whitespace-stripped line — and the
structuring pass only ever applies the predicate to stripped lines — the
heading predicate `is_section_title(line) or classify(line) in {preface,
chapter, section, appendix, references}` holds exactly when the classifier's
label is none of `content`, `toc_header`, `toc_item`; lines with surrounding
whitespace can break the equivalence. -/
theorem c6_amended_heading_equiv (s : Str) (hs : strip s = s) :
    isHeadingLine s = true ↔
      ((identify_structure s).1 ≠ Label.content ∧
       (identify_structure s).1 ≠ Label.toc_header ∧
       (identify_structure s).1 ≠ Label.toc_item) := by
  constructor
  · intro h
    rw [← headingLabel_iff]
    unfold isHeadingLine at h
    simp only [Bool.or_eq_true] at h
    rcases h with hA | hB
    · rcases ist_label hA hs with h' | h' <;> rw [h'] <;> rfl
    · exact hB
  · intro h
    rw [← headingLabel_iff] at h
    unfold isHeadingLine
    rw [h, Bool.or_true]

theorem c6_witness :
    strip "第五章".toList = "第五章".toList ∧
      (isHeadingLine "第五章".toList = true ↔
        ((identify_structure "第五章".toList).1 ≠ Label.content ∧
         (identify_structure "第五章".toList).1 ≠ Label.toc_header ∧
         (identify_structure "第五章".toList).1 ≠ Label.toc_item)) :=
  ⟨by decide, c6_amended_heading_equiv _ (by decide)⟩

/-- A line counted as a heading by the structuring pass is never discarded as
a toc record by the structure loop. -/
theorem isHeading_kept {y : Str} (h : isHeadingLine y = true) :
    ¬((identify_structure y).1 = Label.toc_header ∨
      (identify_structure y).1 = Label.toc_item) := by
  rintro (ht | ht)
  · unfold isHeadingLine at h
    simp only [Bool.or_eq_true] at h
    rcases h with h' | h'
    · have hc := identify_toc_inv ht
      rw [ist_not_toc h'] at hc
      exact Bool.noConfusion hc
    · rw [ht] at h'
      exact Bool.noConfusion h'
  · exact identify_ne_toc_item y ht

/-- The structure loop keeps every heading line, in order: the headings of
its input form a sublist of the texts of its output records. -/
theorem structuredStep_headings (ys : List Str) :
    (ys.filter isHeadingLine).Sublist ((structuredStep ys).map Prod.snd) := by
  induction ys with
  | nil => exact List.nil_sublist _
  | cons y ys ih =>
    by_cases hy : isHeadingLine y = true
    · have hrec : structuredStep (y :: ys) = identify_structure y :: structuredStep ys := by
        simp only [structuredStep]
        by_cases hc : (identify_structure y).1 = Label.content
        · rw [if_pos hc]
        · rw [if_neg hc, if_neg (isHeading_kept hy)]
      rw [hrec, List.filter_cons_of_pos hy, List.map_cons, identify_snd]
      exact ih.cons₂ y
    · have hsplit : structuredStep (y :: ys) = identify_structure y :: structuredStep ys ∨
          structuredStep (y :: ys) = structuredStep ys := by
        simp only [structuredStep]
        by_cases hc : (identify_structure y).1 = Label.content
        · left; rw [if_pos hc]
        · by_cases ht : (identify_structure y).1 = Label.toc_header ∨
              (identify_structure y).1 = Label.toc_item
          · right; rw [if_neg hc, if_pos ht]
          · left; rw [if_neg hc, if_neg ht]
      rw [List.filter_cons_of_neg hy]
      rcases hsplit with h' | h' <;> rw [h']
      · rw [List.map_cons]
        exact ih.cons _
      · exact ih

/-- The merging loop keeps every heading line, in order: the headings of its
input form a sublist of the headings of its output. -/
theorem mergeStageAux_headings (xs : List Str) : ∀ pending,
    (xs.filter isHeadingLine).Sublist ((mergeStageAux pending xs).filter isHeadingLine) := by
  induction xs with
  | nil => exact fun _ => List.nil_sublist _
  | cons l ls ih =>
    intro pending
    by_cases hl : isHeadingLine l = true
    · simp only [mergeStageAux, if_pos hl]
      rw [List.filter_cons_of_pos hl, List.filter_append, List.filter_cons_of_pos hl]
      have := List.Sublist.append
        (List.nil_sublist ((merge_lines pending).filter isHeadingLine)) ((ih []).cons₂ l)
      simpa using this
    · simp only [mergeStageAux, if_neg hl]
      rw [List.filter_cons_of_neg hl]
      exact ih (pending ++ [l])

/-- Claim C8: end-to-end order preservation for headings — the heading lines
that survive the filter stage form a sublist (same elements, same relative
order) of the record texts produced by the whole structuring pass; in
particular two surviving heading lines appear as records in their input
order. -/
theorem c8_heading_order (lines : List Str) :
    ((filterLoop [] lines).filter isHeadingLine).Sublist
      ((convertStructured lines).map Prod.snd) := by
  unfold convertStructured processedLines
  exact (mergeStageAux_headings _ []).trans (structuredStep_headings _)

end Pdf2Md
